import Mathlib

/-!
# Verification of the signals-bot core (signal engine, rate limiter, data fetch, scan cycle)

Shallow embedding of the Python sources in `app/`:

* `app/signal_engine.py`  — `_ema`, `compute_entry`, `compute_exit` (here: `ema`,
  `compute_entry`, `compute_exit` over exact rationals `ℚ`);
* `app/data.py`           — the TwelveData rate limiter `_td_allow` (here `td_allow`,
  with an injected clock value `t : ℚ`), the three provider download functions and
  the fallback chain `fetch_ohlcv` (providers' HTTP layers become oracles in a
  `Market` record; the frame normalization each provider applies is embedded exactly);
* `app/main.py`           — the per-pair body of `run_scan` (here `scanPair`), with the
  database modelled as explicit state and every `db.commit()` recorded as one entry of a
  trace of persisted states.

Machine floats of the source are modelled as exact rationals; Python's `round(x, 2)`
(banker's rounding) is embedded as `round2`.
-/

/-- Python's banker's rounding `round(x)` to an integer: nearest integer,
ties to the even integer. -/
def pyRound (x : ℚ) : ℤ :=
  let f : ℤ := Int.floor x
  let frac : ℚ := x - f
  if frac < 1/2 then f
  else if 1/2 < frac then f + 1
  else if Even f then f else f + 1

/-- Python's `round(x, 2)`: banker's rounding to two decimal places. -/
def round2 (x : ℚ) : ℚ :=
  (pyRound (x * 100) : ℚ) / 100

/-- The signal dict produced by `compute_entry` / `compute_exit`
(`app/signal_engine.py`).  `is_exit` models the extra `"is_exit": True` key the
exit dict carries (absent, i.e. `false`, on entry dicts). -/
structure Sig where
  symbol : String
  timeframe : String
  direction : String
  entry : ℚ
  stop : ℚ
  tp1 : ℚ
  tp2 : ℚ
  confidence : String
  reason : String
  rr : ℚ
  is_exit : Bool
deriving DecidableEq

/-- `_ema(values, length)` from `app/signal_engine.py`: `ema[0] = values[0]`,
`ema[i] = (values[i] - ema[i-1]) * k + ema[i-1]` with `k = 2/(length+1)`;
the empty series maps to the empty series. -/
def ema (values : List ℚ) (length : ℕ) : List ℚ :=
  match values with
  | [] => []
  | v :: vs => List.scanl (fun prev x => (x - prev) * (2 / (length + 1 : ℚ)) + prev) v vs

/-- Specification-side EMA recurrence, indexed: `emaAt closes l i` is the EMA of
period `l` of `closes` at bar index `i` (out-of-range closes read as `0`,
irrelevant for in-range indices). -/
def emaAt (closes : List ℚ) (l : ℕ) : ℕ → ℚ
  | 0 => closes.getD 0 0
  | i + 1 =>
    let prev := emaAt closes l i
    (closes.getD (i + 1) 0 - prev) * (2 / (l + 1 : ℚ)) + prev

/-- `compute_entry(symbol, timeframe)` from `app/signal_engine.py`, with the
fetched close series passed explicitly (the source reads it from
`fetch_ohlcv(symbol, timeframe)["close"]`).  `len < 60` subsumes the
`df.empty` disjunct of the guard. -/
def compute_entry (symbol timeframe : String) (closes : List ℚ) : Option Sig :=
  if closes.length < 60 then none
  else
    let ema20 := ema closes 20
    let ema50 := ema closes 50
    if ema20.length < 2 ∨ ema50.length < 2 then none
    else if ema20.getD (ema20.length - 1) 0 > ema50.getD (ema50.length - 1) 0 ∧
            ema20.getD (ema20.length - 2) 0 ≤ ema50.getD (ema50.length - 2) 0 then
      let entry := closes.getD (closes.length - 1) 0
      let stop := entry * (0.95 : ℚ)
      let tp1 := entry * (1.05 : ℚ)
      let tp2 := entry * (1.10 : ℚ)
      some
        { symbol := symbol.toUpper
          timeframe := timeframe
          direction := "BUY"
          entry := entry
          stop := stop
          tp1 := tp1
          tp2 := tp2
          confidence := "medium"
          reason := "EMA20 crossed above EMA50"
          rr := if entry > stop then round2 ((tp1 - entry) / (entry - stop)) else 1.5
          is_exit := false }
    else none

/-- `compute_exit(symbol, timeframe, entry, stop, tp1, tp2)` from
`app/signal_engine.py`, with the fetched close series passed explicitly. -/
def compute_exit (symbol timeframe : String) (closes : List ℚ)
    (entry stop tp1 tp2 : ℚ) : Option Sig :=
  if closes.isEmpty then none
  else
    let last := closes.getD (closes.length - 1) 0
    let ema50 := ema closes 50
    if ema50.length < 1 then none
    else if last < ema50.getD (ema50.length - 1) 0 ∨ last ≤ stop ∨ last ≥ tp2 then
      some
        { symbol := symbol.toUpper
          timeframe := timeframe
          direction := "SELL"
          entry := entry
          stop := stop
          tp1 := tp1
          tp2 := tp2
          confidence := "medium"
          reason := "Exit rule (EMA50/SL/TP2) met"
          rr := 0
          is_exit := true }
    else none

/-- The module-level rate-limiter state of `app/data.py`
(`_td_minute_window_start`, `_td_minute_count`, `_td_day_window_start`,
`_td_day_count`).  Wall-clock instants are exact rationals. -/
structure TdState where
  minuteWindowStart : ℚ
  minuteCount : ℕ
  dayWindowStart : ℚ
  dayCount : ℕ
deriving DecidableEq

/-- The two window-reset steps at the top of `_td_allow` (`app/data.py`),
applied at clock value `t` before the caps are consulted. -/
def td_resets (t : ℚ) (s : TdState) : TdState :=
  let s1 := if t - s.minuteWindowStart ≥ 60 then
      { s with minuteWindowStart := t, minuteCount := 0 } else s
  if t - s1.dayWindowStart ≥ 86400 then
    { s1 with dayWindowStart := t, dayCount := 0 } else s1

/-- `_td_allow()` from `app/data.py` with the clock `time.time()` injected as `t`
and the two caps `settings.TD_MAX_PER_MINUTE` / `settings.TD_MAX_PER_DAY` as
parameters; returns the boolean result and the mutated module state. -/
def td_allow (capMin capDay : ℕ) (t : ℚ) (s : TdState) : Bool × TdState :=
  let s1 := td_resets t s
  if s1.minuteCount < capMin ∧ s1.dayCount < capDay then
    (true, { s1 with minuteCount := s1.minuteCount + 1, dayCount := s1.dayCount + 1 })
  else
    (false, s1)

/-- Default `settings.TD_MAX_PER_MINUTE` (`app/config.py`). -/
def TD_MAX_PER_MINUTE : ℕ := 8

/-- Default `settings.TD_MAX_PER_DAY` (`app/config.py`). -/
def TD_MAX_PER_DAY : ℕ := 800

/-- A sequence of `_td_allow()` calls at the given clock values, threading the
module state; returns the final state and the list of results. -/
def td_allowRun (capMin capDay : ℕ) (s : TdState) : List ℚ → TdState × List Bool
  | [] => (s, [])
  | t :: ts =>
    let r := td_allow capMin capDay t s
    let rest := td_allowRun capMin capDay r.2 ts
    (rest.1, r.1 :: rest.2)

/-- One row of a provider's raw data frame, after numeric parsing: each cell is
`none` for a null/unparsable value (pandas `NaN`), `some q` otherwise.
`ts` is the bar timestamp (as a rational epoch value), `open_` the `open` column. -/
structure RawRow where
  ts : Option ℚ
  open_ : Option ℚ
  high : Option ℚ
  low : Option ℚ
  close : Option ℚ
  volume : Option ℚ
deriving DecidableEq

/-- pandas `DataFrame.dropna()` over the six columns
`ts, open, high, low, close, volume`: keep exactly the rows with no null cell. -/
def dropna (rows : List RawRow) : List RawRow :=
  rows.filter fun r =>
    r.ts.isSome && r.open_.isSome && r.high.isSome && r.low.isSome &&
      r.close.isSome && r.volume.isSome

/-- The three external data providers of `app/data.py`. -/
inductive Provider
  | td
  | yahoo
  | yf
deriving DecidableEq

/-- An outbound provider request actually constructed by `app/data.py`
(a `session.get` for TwelveData or Yahoo chart, a `yf.download` for yfinance).
`arg1`/`arg2` are the distinguishing request parameters: the candidate symbol
and interval for TwelveData, `(range, interval)` for Yahoo,
`(period, interval)` for yfinance. -/
structure Req where
  provider : Provider
  arg1 : String
  arg2 : String
deriving DecidableEq

/-- The external world one `fetch_ohlcv` invocation sees: configuration flags
and, for each provider request, the raw rows it would deliver (`none` models a
transport error, non-200 status, or an absent/empty data payload — every case
the source treats as "no frame from this request"). -/
structure Market where
  tdKeyPresent : Bool
  tdAllowOk : Bool
  tdRaw : String → Option (List RawRow)
  yahooRaw : String → String → Option (List RawRow)
  yfEnabled : Bool
  yfRaw : String → String → Option (List RawRow)

/-- `_td_interval(tf)` from `app/data.py`: the dict lookup
`{"1h": "1h", "1d": "1day"}[tf]`; `none` models the `KeyError` raised for any
other timeframe. -/
def td_interval (tf : String) : Option String :=
  if tf = "1h" then some "1h"
  else if tf = "1d" then some "1day"
  else none

/-- The candidate loop of `_download_td`: for each symbol variant, issue the
request; a failed request (`none`) moves to the next variant, a delivered frame
is normalized (numeric coercion then `dropna`) and returned, ending the loop.
Also returns the list of requests constructed. -/
def td_try (m : Market) (itv : String) : List String → List RawRow × List Req
  | [] => ([], [])
  | c :: rest =>
    match m.tdRaw c with
    | none =>
      let r := td_try m itv rest
      (r.1, ⟨Provider.td, c, itv⟩ :: r.2)
    | some rows => (dropna rows, [⟨Provider.td, c, itv⟩])

/-- `_download_td(symbol, timeframe, outputsize)` from `app/data.py`.
Returns `Except.error` for the `KeyError` of `_td_interval` on an unsupported
timeframe (raised outside the per-candidate `try`), otherwise the frame and the
request log.  With no API key or a denied rate-limit check it returns the empty
frame without constructing any request. -/
def download_td (m : Market) (symbol timeframe : String) :
    Except String (List RawRow × List Req) :=
  if ¬ m.tdKeyPresent ∨ ¬ m.tdAllowOk then Except.ok ([], [])
  else
    match td_interval timeframe with
    | none => Except.error "KeyError"
    | some itv =>
      Except.ok (td_try m itv
        [symbol, "NASDAQ:" ++ symbol, "NYSE:" ++ symbol, "AMEX:" ++ symbol])

/-- `_download_yahoo_chart(symbol, range_, interval)` from `app/data.py`:
one request; on a delivered payload the constructed frame is `dropna`-ed
(the subsequent `if df.empty: return pd.DataFrame()` leaves the value
unchanged up to frame identity). -/
def download_yahoo (m : Market) (range_ interval : String) : List RawRow × List Req :=
  match m.yahooRaw range_ interval with
  | none => ([], [⟨Provider.yahoo, range_, interval⟩])
  | some rows => (dropna rows, [⟨Provider.yahoo, range_, interval⟩])

/-- `_download_yf(symbol, period, interval)` from `app/data.py`: disabled
(`YF_ENABLE_FALLBACK` unset) it returns the empty frame without a request;
otherwise one `yf.download` request, whose delivered rows are renamed/selected
but NOT passed through `dropna`. -/
def download_yf (m : Market) (period interval : String) : List RawRow × List Req :=
  if ¬ m.yfEnabled then ([], [])
  else
    match m.yfRaw period interval with
    | none => ([], [⟨Provider.yf, period, interval⟩])
    | some rows => (rows, [⟨Provider.yf, period, interval⟩])

/-- `fetch_ohlcv(symbol, timeframe)` from `app/data.py`: the ordered fallback
chain primary (TwelveData) → secondary (Yahoo chart, two range/interval
attempts) → tertiary (yfinance), stopping at the first non-empty frame.
`Except.error` models the exceptions the source lets escape (`KeyError` from
`_td_interval`, `ValueError("Unsupported timeframe")`).  The second component
is the log of provider requests constructed, in order. -/
def fetch_ohlcv (m : Market) (symbol timeframe : String) :
    Except String (List RawRow) × List Req :=
  let symbol := symbol.toUpper.trim
  match download_td m symbol timeframe with
  | Except.error e => (Except.error e, [])
  | Except.ok (df, log1) =>
    if ¬ df.isEmpty then (Except.ok df, log1)
    else if timeframe = "1h" then
      let a1 := download_yahoo m "7d" "60m"
      let a2 := if a1.1.isEmpty then download_yahoo m "1y" "1d" else (a1.1, [])
      let log2 := log1 ++ a1.2 ++ a2.2
      if ¬ a2.1.isEmpty then (Except.ok a2.1, log2)
      else
        let b1 := download_yf m "7d" "60m"
        let b2 := if b1.1.isEmpty then download_yf m "1y" "1d" else (b1.1, [])
        (Except.ok b2.1, log2 ++ b1.2 ++ b2.2)
    else if timeframe = "1d" then
      let a1 := download_yahoo m "1y" "1d"
      let a2 := if a1.1.isEmpty then download_yahoo m "2y" "1d" else (a1.1, [])
      let log2 := log1 ++ a1.2 ++ a2.2
      if ¬ a2.1.isEmpty then (Except.ok a2.1, log2)
      else
        let b := download_yf m "1y" "1d"
        (Except.ok b.1, log2 ++ b.2)
    else (Except.error "Unsupported timeframe", log1)

/-- The combined result of the secondary (Yahoo chart) stage of the chain for a
supported timeframe: the first attempt's frame if non-empty, else the second
attempt's. -/
def yahooStage (m : Market) (timeframe : String) : List RawRow :=
  if timeframe = "1h" then
    let a1 := (download_yahoo m "7d" "60m").1
    if a1.isEmpty then (download_yahoo m "1y" "1d").1 else a1
  else
    let a1 := (download_yahoo m "1y" "1d").1
    if a1.isEmpty then (download_yahoo m "2y" "1d").1 else a1

/-- `PositionStatus` from `app/models.py`. -/
inductive PStatus
  | OPEN
  | CLOSED
deriving DecidableEq

/-- A row of the `positions` table (`app/models.py`).  `id` doubles as the
`opened_at` ordering key: rows are created with strictly increasing ids, so
"order by opened_at desc" is "greatest id". -/
structure PositionR where
  id : ℕ
  symbol : String
  timeframe : String
  entry : ℚ
  stop : ℚ
  tp1 : ℚ
  tp2 : ℚ
  status : PStatus
deriving DecidableEq

/-- A row of the `signals` table (`app/models.py`), the columns `run_scan`
fills from a signal dict. -/
structure SignalR where
  symbol : String
  timeframe : String
  direction : String
  entry : ℚ
  stop : ℚ
  tp1 : ℚ
  tp2 : ℚ
  confidence : String
  reason : String
  rr : ℚ
deriving DecidableEq

/-- `Signal(**{k: v for k, v in sig.items() if k != "is_exit"})`: the table row
built from a signal dict, dropping the `is_exit` key. -/
def sigRow (s : Sig) : SignalR :=
  { symbol := s.symbol
    timeframe := s.timeframe
    direction := s.direction
    entry := s.entry
    stop := s.stop
    tp1 := s.tp1
    tp2 := s.tp2
    confidence := s.confidence
    reason := s.reason
    rr := s.rr }

/-- The persisted store: the `signals` and `positions` tables plus the id
sequence for new position rows. -/
structure DB where
  signals : List SignalR
  positions : List PositionR
  nextId : ℕ
deriving DecidableEq

/-- The rows `filter_by(symbol=sym, timeframe=tf, status=PositionStatus.OPEN)`
selects (`run_scan`, `app/main.py`). -/
def openFilter (db : DB) (sym tf : String) : List PositionR :=
  db.positions.filter fun p =>
    decide (p.symbol = sym ∧ p.timeframe = tf ∧ p.status = PStatus.OPEN)

/-- The number of OPEN position rows for a pair. -/
def countOpen (db : DB) (sym tf : String) : ℕ :=
  (openFilter db sym tf).length

/-- The position lookup of `run_scan`: the OPEN row for the pair with the
greatest opened-at key (`order_by(Position.opened_at.desc()).first()`),
`none` when the pair has no OPEN row. -/
def lookupOpen (db : DB) (sym tf : String) : Option PositionR :=
  (openFilter db sym tf).argmax (fun p => p.id)

/-- `pos.status = PositionStatus.CLOSED` applied to the row with id `i`. -/
def closeById (ps : List PositionR) (i : ℕ) : List PositionR :=
  ps.map fun p => if p.id = i then { p with status := PStatus.CLOSED } else p

/-- The `Position(symbol=sym, timeframe=tf, entry=..., stop=..., tp1=...,
tp2=...)` row created on an entry signal; `status` defaults to OPEN. -/
def newPosition (i : ℕ) (sym tf : String) (s : Sig) : PositionR :=
  { id := i
    symbol := sym
    timeframe := tf
    entry := s.entry
    stop := s.stop
    tp1 := s.tp1
    tp2 := s.tp2
    status := PStatus.OPEN }

/-- The outcome of one `compute_entry` / `compute_exit` call: `Except.error`
models a raised exception, `Except.ok` the returned optional signal dict. -/
def evalCaught (o : Except Unit (Option Sig)) : Option Sig :=
  match o with
  | Except.error _ => none
  | Except.ok s => s

/-- The oracle for one (symbol, timeframe) pair in one cycle: what
`compute_exit` would do if called, and what `compute_entry` would do if
called. -/
structure PairOutcome where
  exitRes : Except Unit (Option Sig)
  entryRes : Except Unit (Option Sig)

/-- The body of `run_scan`'s inner loop for one (symbol, timeframe) pair
(`app/main.py` lines 71–117).  Returns the list of states persisted by each
`db.commit()` in order, the final state, and the pair's contribution to
`created`.

Faithful commit structure: the exit branch adds the Signal row, flips the
position to CLOSED and commits ONCE; the entry branch commits the Signal row
first, then adds the Position row and commits a second time.  An exception in
`compute_exit`/`compute_entry` is caught and treated as `None`; when an open
position exists the entry search is skipped (`continue`) whether or not the
exit fired. -/
def scanPair (db : DB) (sym tf : String) (oc : PairOutcome) : List DB × DB × ℕ :=
  match lookupOpen db sym tf with
  | some pos =>
    match evalCaught oc.exitRes with
    | some s =>
      let db1 : DB := { db with
        signals := db.signals ++ [sigRow s]
        positions := closeById db.positions pos.id }
      ([db1], db1, 1)
    | none => ([], db, 0)
  | none =>
    match evalCaught oc.entryRes with
    | some s =>
      let db1 : DB := { db with signals := db.signals ++ [sigRow s] }
      let db2 : DB := { db1 with
        positions := db1.positions ++ [newPosition db1.nextId sym tf s]
        nextId := db1.nextId + 1 }
      ([db1, db2], db2, 1)
    | none => ([], db, 0)

/-- `run_scan` over its pair list (watchlist × timeframes, with each pair's
evaluation outcome supplied by the oracle): threads the store through
`scanPair`, concatenates the committed-state traces and sums `created`. -/
def runScan (db : DB) : List (String × String × PairOutcome) → List DB × DB × ℕ
  | [] => ([], db, 0)
  | (sym, tf, oc) :: rest =>
    let r1 := scanPair db sym tf oc
    let r2 := runScan r1.2.1 rest
    (r1.1 ++ r2.1, r2.2.1, r1.2.2 + r2.2.2)

/-- A sequence of scan cycles restricted to a single (symbol, timeframe) pair:
each cycle processes the pair once with that cycle's outcome oracle.  Returns
all committed states in order and the final state. -/
def runCycles (db : DB) (sym tf : String) : List PairOutcome → List DB × DB
  | [] => ([], db)
  | oc :: rest =>
    let r1 := scanPair db sym tf oc
    let r2 := runCycles r1.2.1 sym tf rest
    (r1.1 ++ r2.1, r2.2)

/-- A concrete BUY signal dict (used as a concrete witness input). -/
def buySig : Sig :=
  { symbol := "AAPL", timeframe := "1h", direction := "BUY"
    entry := 190, stop := 180, tp1 := 199, tp2 := 209
    confidence := "medium", reason := "EMA20 crossed above EMA50"
    rr := 1, is_exit := false }

/-- A concrete SELL signal dict (used as a concrete witness input). -/
def sellSig : Sig :=
  { symbol := "AAPL", timeframe := "1h", direction := "SELL"
    entry := 190, stop := 180, tp1 := 199, tp2 := 209
    confidence := "medium", reason := "Exit rule (EMA50/SL/TP2) met"
    rr := 0, is_exit := true }

/-- A raw provider row with every cell present (used as a concrete witness). -/
def cleanRow : RawRow :=
  { ts := some 0, open_ := some 1, high := some 2, low := some 3
    close := some 4, volume := some 5 }

/-- A raw provider row whose close cell is null (used as a concrete witness). -/
def nullCloseRow : RawRow :=
  { ts := some 6, open_ := some 7, high := some 8, low := some 9
    close := none, volume := some 10 }

/-- A concrete market: primary and secondary deliver nothing, tertiary enabled
and delivering a single null-close row. -/
def yfOnlyMarket : Market :=
  { tdKeyPresent := false, tdAllowOk := true, tdRaw := fun _ => none
    yahooRaw := fun _ _ => none, yfEnabled := true
    yfRaw := fun _ _ => some [nullCloseRow] }

/-- A concrete market: primary enabled, delivering one clean and one
null-close row on the first candidate symbol. -/
def tdMixedMarket : Market :=
  { tdKeyPresent := true, tdAllowOk := true
    tdRaw := fun _ => some [cleanRow, nullCloseRow]
    yahooRaw := fun _ _ => none, yfEnabled := false, yfRaw := fun _ _ => none }

/-- A concrete market: primary disabled (no API key), secondary delivering a
single clean row on every attempt, tertiary enabled. -/
def yahooMarket : Market :=
  { tdKeyPresent := false, tdAllowOk := true, tdRaw := fun _ => none
    yahooRaw := fun _ _ => some [cleanRow], yfEnabled := true
    yfRaw := fun _ _ => some [nullCloseRow] }

theorem ema_length (values : List ℚ) (l : ℕ) : (ema values l).length = values.length := by
  cases values with
  | nil => rfl
  | cons v vs => simp [ema, List.length_scanl]

theorem ema_getD (values : List ℚ) (l : ℕ) :
    ∀ i, i < values.length → (ema values l).getD i 0 = emaAt values l i := by
  cases values with
  | nil => intro i hi; simp at hi
  | cons v vs =>
    intro i hi
    induction i with
    | zero =>
      rw [List.getD_eq_getElem _ _ (by rw [ema_length]; omega)]
      simp [ema, emaAt]
    | succ i ih =>
      have hlen : i + 1 < (ema (v :: vs) l).length := by rw [ema_length]; exact hi
      rw [List.getD_eq_getElem _ _ hlen]
      have hscan : i + 1 <
          (List.scanl (fun prev x => (x - prev) * (2 / (l + 1 : ℚ)) + prev) v vs).length := by
        simpa [ema] using hlen
      show (List.scanl (fun prev x => (x - prev) * (2 / (l + 1 : ℚ)) + prev) v vs).get
          ⟨i + 1, hscan⟩ = _
      rw [List.get_succ_scanl]
      have hi' : i < (v :: vs).length := Nat.lt_of_succ_lt hi
      have ihv := ih hi'
      rw [List.getD_eq_getElem _ _ (by rw [ema_length]; exact hi')] at ihv
      have hvs : i < vs.length := Nat.lt_of_succ_lt_succ hi
      have ihv2 : (List.scanl (fun prev x => (x - prev) * (2 / (l + 1 : ℚ)) + prev) v vs).get
          ⟨i, Nat.lt_of_succ_lt hscan⟩ = emaAt (v :: vs) l i := ihv
      have hcell : vs.get ⟨i, hvs⟩ = (v :: vs).getD (i + 1) 0 := by
        rw [List.getD_eq_getElem _ _ hi]
        simp
      simp only [emaAt]
      rw [← ihv2, ← hcell]

theorem getD_replicate_spike_lt (n : ℕ) (c : ℚ) (i : ℕ) (hi : i < n) :
    (List.replicate n (0:ℚ) ++ [c]).getD i 0 = 0 := by
  rw [List.getD_eq_getElem _ _ (by simp; omega)]
  rw [List.getElem_append_left (by simpa using hi)]
  simp

theorem emaAt_replicate_spike (l n : ℕ) (c : ℚ) :
    ∀ i, i < n → emaAt (List.replicate n (0:ℚ) ++ [c]) l i = 0 := by
  intro i
  induction i with
  | zero =>
    intro h
    simp only [emaAt]
    exact getD_replicate_spike_lt n c 0 h
  | succ i ih =>
    intro h
    simp only [emaAt]
    rw [ih (by omega), getD_replicate_spike_lt n c (i+1) h]
    ring

theorem emaAt_replicate_spike_last (l n : ℕ) (c : ℚ) (hn : 0 < n) :
    emaAt (List.replicate n (0:ℚ) ++ [c]) l n = c * (2 / (l + 1 : ℚ)) := by
  obtain ⟨m, rfl⟩ : ∃ m, n = m + 1 := ⟨n - 1, by omega⟩
  simp only [emaAt]
  rw [emaAt_replicate_spike l (m+1) c m (by omega)]
  have hget : (List.replicate (m+1) (0:ℚ) ++ [c]).getD (m+1) 0 = c := by
    rw [List.getD_eq_getElem _ _ (by simp)]
    rw [List.getElem_append_right (by simp)]
    simp
  rw [hget]
  ring

/-- C3: `compute_entry` returns a signal iff the series has at least 60 bars
and EMA20 crosses above EMA50 on the last bar (strictly above at the last
index, `≤` at the second-to-last); 59 or fewer bars never signal; on trigger
the signal is a BUY at the last close with stop/tp1/tp2 at 95%/105%/110% of
entry and riskReward `round((tp1-entry)/(entry-stop), 2)` when `entry > stop`,
else `1.5`. -/
theorem compute_entry_spec (sym tf : String) (closes : List ℚ) :
    (closes.length ≤ 59 → compute_entry sym tf closes = none) ∧
    ((compute_entry sym tf closes).isSome ↔
      60 ≤ closes.length ∧
      emaAt closes 20 (closes.length - 1) > emaAt closes 50 (closes.length - 1) ∧
      emaAt closes 20 (closes.length - 2) ≤ emaAt closes 50 (closes.length - 2)) ∧
    (∀ s, compute_entry sym tf closes = some s →
      closes.getLast? = some s.entry ∧
      s.symbol = sym.toUpper ∧ s.timeframe = tf ∧ s.direction = "BUY" ∧
      s.stop = s.entry * (95/100) ∧ s.tp1 = s.entry * (105/100) ∧
      s.tp2 = s.entry * (110/100) ∧
      s.confidence = "medium" ∧ s.reason = "EMA20 crossed above EMA50" ∧
      s.rr = (if s.entry > s.stop then round2 ((s.tp1 - s.entry) / (s.entry - s.stop))
              else 3/2) ∧
      s.is_exit = false) := by
  by_cases hlen : closes.length < 60
  · have hnone : compute_entry sym tf closes = none := by
      simp [compute_entry, hlen]
    refine ⟨fun _ => hnone, ?_, ?_⟩
    · simp [hnone]; omega
    · intro s hs; rw [hnone] at hs; exact absurd hs (by simp)
  · push_neg at hlen
    have h20 : (ema closes 20).length = closes.length := ema_length closes 20
    have h50 : (ema closes 50).length = closes.length := ema_length closes 50
    have hguard : ¬ ((ema closes 20).length < 2 ∨ (ema closes 50).length < 2) := by
      rw [h20, h50]; omega
    have e20l : (ema closes 20).getD ((ema closes 20).length - 1) 0
        = emaAt closes 20 (closes.length - 1) := by
      rw [h20]; exact ema_getD closes 20 _ (by omega)
    have e50l : (ema closes 50).getD ((ema closes 50).length - 1) 0
        = emaAt closes 50 (closes.length - 1) := by
      rw [h50]; exact ema_getD closes 50 _ (by omega)
    have e20p : (ema closes 20).getD ((ema closes 20).length - 2) 0
        = emaAt closes 20 (closes.length - 2) := by
      rw [h20]; exact ema_getD closes 20 _ (by omega)
    have e50p : (ema closes 50).getD ((ema closes 50).length - 2) 0
        = emaAt closes 50 (closes.length - 2) := by
      rw [h50]; exact ema_getD closes 50 _ (by omega)
    have hentry : compute_entry sym tf closes =
        (if emaAt closes 20 (closes.length - 1) > emaAt closes 50 (closes.length - 1) ∧
            emaAt closes 20 (closes.length - 2) ≤ emaAt closes 50 (closes.length - 2) then
          some
            { symbol := sym.toUpper, timeframe := tf, direction := "BUY"
              entry := closes.getD (closes.length - 1) 0
              stop := closes.getD (closes.length - 1) 0 * (0.95 : ℚ)
              tp1 := closes.getD (closes.length - 1) 0 * (1.05 : ℚ)
              tp2 := closes.getD (closes.length - 1) 0 * (1.10 : ℚ)
              confidence := "medium", reason := "EMA20 crossed above EMA50"
              rr := if closes.getD (closes.length - 1) 0 >
                  closes.getD (closes.length - 1) 0 * (0.95 : ℚ) then
                  round2 ((closes.getD (closes.length - 1) 0 * (1.05 : ℚ) -
                      closes.getD (closes.length - 1) 0) /
                    (closes.getD (closes.length - 1) 0 -
                      closes.getD (closes.length - 1) 0 * (0.95 : ℚ)))
                else 1.5
              is_exit := false }
        else none) := by
      rw [compute_entry]
      rw [if_neg (by omega)]
      rw [if_neg hguard]
      rw [e20l, e50l, e20p, e50p]
    refine ⟨fun h => absurd h (by omega), ?_, ?_⟩
    · rw [hentry]
      by_cases hc : emaAt closes 20 (closes.length - 1) > emaAt closes 50 (closes.length - 1) ∧
          emaAt closes 20 (closes.length - 2) ≤ emaAt closes 50 (closes.length - 2)
      · simp only [if_pos hc, Option.isSome_some]
        exact ⟨fun _ => ⟨hlen, hc.1, hc.2⟩, fun _ => trivial⟩
      · simp only [if_neg hc]
        constructor
        · intro h; simp at h
        · intro h; exact absurd ⟨h.2.1, h.2.2⟩ hc
    · intro s hs
      rw [hentry] at hs
      by_cases hc : emaAt closes 20 (closes.length - 1) > emaAt closes 50 (closes.length - 1) ∧
          emaAt closes 20 (closes.length - 2) ≤ emaAt closes 50 (closes.length - 2)
      · rw [if_pos hc] at hs
        have hsval := Option.some.inj hs
        have hlast : closes.getLast? = some (closes.getD (closes.length - 1) 0) := by
          rw [List.getD_eq_getElem _ _ (by omega)]
          rw [List.getLast?_eq_getElem?]
          exact List.getElem?_eq_getElem (by omega)
        subst hsval
        refine ⟨hlast, rfl, rfl, rfl, ?_, ?_, ?_, rfl, rfl, ?_, rfl⟩
        · norm_num
        · norm_num
        · norm_num
        · norm_num
      · rw [if_neg hc] at hs; exact absurd hs (by simp)

/-- Witness for C3: a 59-bar series yields no signal; a 60-bar series whose
EMA20 crosses above EMA50 on the last bar yields one. -/
theorem compute_entry_spec_witness :
    compute_entry "aapl" "1h" (List.replicate 59 (1:ℚ)) = none ∧
    (compute_entry "AAPL" "1h" (List.replicate 59 (0:ℚ) ++ [1071])).isSome := by
  constructor
  · exact (compute_entry_spec "aapl" "1h" _).1 (by simp)
  · apply (compute_entry_spec "AAPL" "1h" _).2.1.mpr
    have hlen : (List.replicate 59 (0:ℚ) ++ [1071]).length = 60 := by simp
    refine ⟨by rw [hlen], ?_, ?_⟩
    · rw [hlen, show (60:ℕ) - 1 = 59 from rfl]
      rw [emaAt_replicate_spike_last 20 59 1071 (by omega),
          emaAt_replicate_spike_last 50 59 1071 (by omega)]
      norm_num
    · rw [hlen, show (60:ℕ) - 2 = 58 from rfl]
      rw [emaAt_replicate_spike 20 59 1071 58 (by omega),
          emaAt_replicate_spike 50 59 1071 58 (by omega)]

theorem compute_exit_isSome_iff (sym tf : String) (closes : List ℚ) (entry stop tp1 tp2 : ℚ)
    (h : closes ≠ []) :
    (compute_exit sym tf closes entry stop tp1 tp2).isSome ↔
      (closes.getLast h < emaAt closes 50 (closes.length - 1) ∨
       closes.getLast h ≤ stop ∨ closes.getLast h ≥ tp2) := by
  have hpos : 0 < closes.length := List.length_pos.mpr h
  have hne : closes.isEmpty = false := by simp [h]
  have h50 : (ema closes 50).length = closes.length := ema_length closes 50
  have hlast : closes.getD (closes.length - 1) 0 = closes.getLast h := by
    rw [List.getD_eq_getElem _ _ (by omega)]
    rw [List.getLast_eq_getElem]
  have he : (ema closes 50).getD ((ema closes 50).length - 1) 0
      = emaAt closes 50 (closes.length - 1) := by
    rw [h50]; exact ema_getD closes 50 _ (by omega)
  simp only [compute_exit, hne, Bool.false_eq_true, if_false]
  rw [if_neg (by omega)]
  rw [hlast, he]
  by_cases hcond : closes.getLast h < emaAt closes 50 (closes.length - 1) ∨
      closes.getLast h ≤ stop ∨ closes.getLast h ≥ tp2
  · rw [if_pos hcond]
    simpa using hcond
  · rw [if_neg hcond]
    simpa using hcond

theorem compute_exit_fields (sym tf : String) (closes : List ℚ) (entry stop tp1 tp2 : ℚ) :
    ∀ s, compute_exit sym tf closes entry stop tp1 tp2 = some s →
      s.symbol = sym.toUpper ∧ s.timeframe = tf ∧ s.direction = "SELL" ∧
      s.entry = entry ∧ s.stop = stop ∧ s.tp1 = tp1 ∧ s.tp2 = tp2 ∧
      s.confidence = "medium" ∧ s.reason = "Exit rule (EMA50/SL/TP2) met" ∧
      s.rr = 0 ∧ s.is_exit = true := by
  intro s hs
  simp only [compute_exit] at hs
  by_cases h1 : closes.isEmpty = true
  · rw [if_pos h1] at hs; exact absurd hs (by simp)
  · rw [if_neg h1] at hs
    by_cases h2 : (ema closes 50).length < 1
    · rw [if_pos h2] at hs; exact absurd hs (by simp)
    · rw [if_neg h2] at hs
      by_cases h3 : closes.getD (closes.length - 1) 0 <
            (ema closes 50).getD ((ema closes 50).length - 1) 0 ∨
          closes.getD (closes.length - 1) 0 ≤ stop ∨
          closes.getD (closes.length - 1) 0 ≥ tp2
      · rw [if_pos h3] at hs
        injection hs with hval
        subst hval
        exact ⟨rfl, rfl, rfl, rfl, rfl, rfl, rfl, rfl, rfl, rfl, rfl⟩
      · rw [if_neg h3] at hs; exact absurd hs (by simp)

/-- C4: `compute_exit` on a non-empty series returns a SELL signal iff the
latest close is strictly below the last EMA50, or `≤ stop`, or `≥ tp2`
(each independently sufficient); the signal carries the position's original
entry/stop/tp1/tp2 unchanged with riskReward 0; an empty series yields no
signal. -/
theorem compute_exit_spec (sym tf : String) (closes : List ℚ) (entry stop tp1 tp2 : ℚ) :
    (closes = [] → compute_exit sym tf closes entry stop tp1 tp2 = none) ∧
    (∀ (h : closes ≠ []),
      ((compute_exit sym tf closes entry stop tp1 tp2).isSome ↔
        (closes.getLast h < emaAt closes 50 (closes.length - 1) ∨
         closes.getLast h ≤ stop ∨ closes.getLast h ≥ tp2))) ∧
    (∀ s, compute_exit sym tf closes entry stop tp1 tp2 = some s →
      s.symbol = sym.toUpper ∧ s.timeframe = tf ∧ s.direction = "SELL" ∧
      s.entry = entry ∧ s.stop = stop ∧ s.tp1 = tp1 ∧ s.tp2 = tp2 ∧ s.rr = 0 ∧
      s.is_exit = true) := by
  refine ⟨?_, fun h => compute_exit_isSome_iff sym tf closes entry stop tp1 tp2 h, ?_⟩
  · intro he; subst he; rfl
  · intro s hs
    obtain ⟨a1, a2, a3, a4, a5, a6, a7, _, _, a10, a11⟩ :=
      compute_exit_fields sym tf closes entry stop tp1 tp2 s hs
    exact ⟨a1, a2, a3, a4, a5, a6, a7, a10, a11⟩

/-- Witness for C4: the empty series yields no exit signal; a one-bar series
with close 5 and stop 6 triggers the stop rule. -/
theorem compute_exit_spec_witness :
    compute_exit "x" "1h" ([] : List ℚ) 1 2 3 4 = none ∧
    (compute_exit "AAPL" "1h" [(5:ℚ)] 10 6 11 12).isSome := by
  refine ⟨(compute_exit_spec "x" "1h" [] 1 2 3 4).1 rfl, ?_⟩
  apply ((compute_exit_spec "AAPL" "1h" [(5:ℚ)] 10 6 11 12).2.1 (by simp)).mpr
  right; left
  simp [List.getLast_singleton]
  norm_num

/-- C10: `compute_exit` has no minimum-history floor beyond non-emptiness: a
one-bar series signals iff its close is `≤ stop` or `≥ tp2` (the EMA50 rule
cannot fire there since EMA50 of one bar equals that bar); every non-empty
series has its exit conditions evaluated; `compute_entry`'s 60-bar floor has
no counterpart. -/
theorem compute_exit_no_min_history (sym tf : String) (c entry stop tp1 tp2 : ℚ) :
    ((compute_exit sym tf [c] entry stop tp1 tp2).isSome ↔ (c ≤ stop ∨ c ≥ tp2)) ∧
    (∀ (closes : List ℚ) (h : closes ≠ []),
      ((compute_exit sym tf closes entry stop tp1 tp2).isSome ↔
        (closes.getLast h < emaAt closes 50 (closes.length - 1) ∨
         closes.getLast h ≤ stop ∨ closes.getLast h ≥ tp2))) ∧
    (∀ closes : List ℚ, closes.length < 60 → compute_entry sym tf closes = none) := by
  refine ⟨?_, fun closes h => compute_exit_isSome_iff sym tf closes entry stop tp1 tp2 h, ?_⟩
  · rw [compute_exit_isSome_iff sym tf [c] entry stop tp1 tp2 (by simp)]
    have h1 : ([c] : List ℚ).getLast (by simp) = c := rfl
    have h2 : emaAt [c] 50 (([c] : List ℚ).length - 1) = c := by simp [emaAt]
    rw [h1, h2]
    constructor
    · rintro (hlt | hle | hge)
      · exact absurd hlt (lt_irrefl c)
      · exact Or.inl hle
      · exact Or.inr hge
    · rintro (hle | hge)
      · exact Or.inr (Or.inl hle)
      · exact Or.inr (Or.inr hge)
  · intro closes hlen
    simp [compute_entry, hlen]

/-- Witness for C10: a one-bar series at close 1 with stop 2 produces an exit
signal, while a one-bar series never produces an entry signal. -/
theorem compute_exit_no_min_history_witness :
    (compute_exit "a" "1d" [(1:ℚ)] 5 2 6 7).isSome ∧
    compute_entry "a" "1d" [(1:ℚ)] = none := by
  refine ⟨((compute_exit_no_min_history "a" "1d" 1 5 2 6 7).1).mpr (Or.inl (by norm_num)),
    (compute_exit_no_min_history "a" "1d" 1 5 2 6 7).2.2 [(1:ℚ)] (by simp)⟩


theorem td_resets_eq (t : ℚ) (s : TdState) :
    td_resets t s =
      { minuteWindowStart := if t - s.minuteWindowStart ≥ 60 then t else s.minuteWindowStart
        minuteCount := if t - s.minuteWindowStart ≥ 60 then 0 else s.minuteCount
        dayWindowStart := if t - s.dayWindowStart ≥ 86400 then t else s.dayWindowStart
        dayCount := if t - s.dayWindowStart ≥ 86400 then 0 else s.dayCount } := by
  by_cases h1 : t - s.minuteWindowStart ≥ 60 <;>
    by_cases h2 : t - s.dayWindowStart ≥ 86400 <;>
      simp [td_resets, h1, h2]

theorem td_allow_eq (capMin capDay : ℕ) (t : ℚ) (s : TdState) :
    td_allow capMin capDay t s =
      (if (td_resets t s).minuteCount < capMin ∧ (td_resets t s).dayCount < capDay then
        (true, { td_resets t s with
          minuteCount := (td_resets t s).minuteCount + 1
          dayCount := (td_resets t s).dayCount + 1 })
      else (false, td_resets t s)) := rfl

theorem td_allowRun_all_true (capMin capDay : ℕ) (s : TdState) :
    ∀ ts : List ℚ,
      (∀ u ∈ ts, u - s.minuteWindowStart < 60 ∧ u - s.dayWindowStart < 86400) →
      (td_allowRun capMin capDay s ts).2.all id = true →
      (td_allowRun capMin capDay s ts).1.minuteCount = s.minuteCount + ts.length ∧
      (td_allowRun capMin capDay s ts).1.dayCount = s.dayCount + ts.length ∧
      (td_allowRun capMin capDay s ts).1.minuteWindowStart = s.minuteWindowStart ∧
      (td_allowRun capMin capDay s ts).1.dayWindowStart = s.dayWindowStart := by
  intro ts
  induction ts generalizing s with
  | nil => intro _ _; exact ⟨rfl, rfl, rfl, rfl⟩
  | cons t ts ih =>
    intro hmem hall
    have hwin := hmem t (by simp)
    have hres : td_resets t s = s := by
      rw [td_resets_eq]
      rw [if_neg (by push_neg; linarith [hwin.1]), if_neg (by push_neg; linarith [hwin.1]),
          if_neg (by push_neg; linarith [hwin.2]), if_neg (by push_neg; linarith [hwin.2])]
    simp only [td_allowRun, List.all_cons, Bool.and_eq_true, id] at hall ⊢
    by_cases hcap : s.minuteCount < capMin ∧ s.dayCount < capDay
    · have hstep : td_allow capMin capDay t s =
          (true, { s with minuteCount := s.minuteCount + 1, dayCount := s.dayCount + 1 }) := by
        rw [td_allow_eq, hres, if_pos hcap]
      rw [hstep] at hall ⊢
      have ihv := ih { s with minuteCount := s.minuteCount + 1, dayCount := s.dayCount + 1 }
        (fun u hu => hmem u (by simp [hu])) hall.2
      refine ⟨?_, ?_, ihv.2.2.1, ihv.2.2.2⟩
      · rw [ihv.1]
        show s.minuteCount + 1 + ts.length = s.minuteCount + (t :: ts).length
        simp only [List.length_cons]
        omega
      · rw [ihv.2.1]
        show s.dayCount + 1 + ts.length = s.dayCount + (t :: ts).length
        simp only [List.length_cons]
        omega
    · have hstep : td_allow capMin capDay t s = (false, s) := by
        rw [td_allow_eq, hres, if_neg hcap]
      rw [hstep] at hall
      exact absurd hall.1 (by simp)

/-- C5: one `_td_allow` call returns true and increments both counters exactly
when, after the window resets, both counters are below their caps; otherwise it
returns false leaving the (post-reset) counters unchanged; counters never
exceed their caps; and after allowed calls filling the per-minute cap inside
one minute window, a further in-window call returns false mutating nothing. -/
theorem td_allow_spec (capMin capDay : ℕ) (t : ℚ) (s : TdState) :
    ((td_allow capMin capDay t s).1 = true ↔
      (td_resets t s).minuteCount < capMin ∧ (td_resets t s).dayCount < capDay) ∧
    ((td_allow capMin capDay t s).1 = true →
      (td_allow capMin capDay t s).2.minuteCount = (td_resets t s).minuteCount + 1 ∧
      (td_allow capMin capDay t s).2.dayCount = (td_resets t s).dayCount + 1) ∧
    ((td_allow capMin capDay t s).1 = false →
      (td_allow capMin capDay t s).2 = td_resets t s) ∧
    (s.minuteCount ≤ capMin → (td_allow capMin capDay t s).2.minuteCount ≤ capMin) ∧
    (s.dayCount ≤ capDay → (td_allow capMin capDay t s).2.dayCount ≤ capDay) ∧
    (∀ ts : List ℚ,
      (∀ u ∈ ts, u - s.minuteWindowStart < 60 ∧ u - s.dayWindowStart < 86400) →
      (td_allowRun capMin capDay s ts).2.all id = true →
      s.minuteCount + ts.length = capMin →
      t - s.minuteWindowStart < 60 → t - s.dayWindowStart < 86400 →
      td_allow capMin capDay t (td_allowRun capMin capDay s ts).1 =
        (false, (td_allowRun capMin capDay s ts).1)) := by
  refine ⟨?_, ?_, ?_, ?_, ?_, ?_⟩
  · rw [td_allow_eq]
    by_cases hc : (td_resets t s).minuteCount < capMin ∧ (td_resets t s).dayCount < capDay
    · rw [if_pos hc]; exact ⟨fun _ => hc, fun _ => rfl⟩
    · rw [if_neg hc]; exact ⟨fun h => absurd h (by simp), fun h => absurd h hc⟩
  · rw [td_allow_eq]
    by_cases hc : (td_resets t s).minuteCount < capMin ∧ (td_resets t s).dayCount < capDay
    · rw [if_pos hc]; exact fun _ => ⟨rfl, rfl⟩
    · rw [if_neg hc]; exact fun h => absurd h (by simp)
  · rw [td_allow_eq]
    by_cases hc : (td_resets t s).minuteCount < capMin ∧ (td_resets t s).dayCount < capDay
    · rw [if_pos hc]; exact fun h => absurd h (by simp)
    · rw [if_neg hc]; exact fun _ => rfl
  · intro hle
    rw [td_allow_eq]
    by_cases hc : (td_resets t s).minuteCount < capMin ∧ (td_resets t s).dayCount < capDay
    · rw [if_pos hc]; exact hc.1
    · rw [if_neg hc]
      rw [td_resets_eq]
      dsimp only
      split
      · omega
      · exact hle
  · intro hle
    rw [td_allow_eq]
    by_cases hc : (td_resets t s).minuteCount < capMin ∧ (td_resets t s).dayCount < capDay
    · rw [if_pos hc]; exact hc.2
    · rw [if_neg hc]
      rw [td_resets_eq]
      dsimp only
      split
      · omega
      · exact hle
  · intro ts hmem hall hcount hmin hday
    obtain ⟨hm, hd, hws, hds⟩ := td_allowRun_all_true capMin capDay s ts hmem hall
    have hres : td_resets t (td_allowRun capMin capDay s ts).1 =
        (td_allowRun capMin capDay s ts).1 := by
      rw [td_resets_eq]
      rw [if_neg (by rw [hws]; push_neg; linarith), if_neg (by rw [hws]; push_neg; linarith),
          if_neg (by rw [hds]; push_neg; linarith), if_neg (by rw [hds]; push_neg; linarith)]
    rw [td_allow_eq, hres, if_neg (by rw [hm, hcount]; omega)]

/-- Witness for C5: with the default caps (8/minute, 800/day) and a fresh
state, eight calls in one minute window are allowed and the ninth is refused
without mutation. -/
theorem td_allow_spec_witness :
    (td_allowRun TD_MAX_PER_MINUTE TD_MAX_PER_DAY ⟨0, 0, 0, 0⟩
      [0, 1, 2, 3, 4, 5, 6, 7]).2.all id = true ∧
    td_allow TD_MAX_PER_MINUTE TD_MAX_PER_DAY 8
      (td_allowRun TD_MAX_PER_MINUTE TD_MAX_PER_DAY ⟨0, 0, 0, 0⟩ [0, 1, 2, 3, 4, 5, 6, 7]).1 =
      (false, (td_allowRun TD_MAX_PER_MINUTE TD_MAX_PER_DAY ⟨0, 0, 0, 0⟩
        [0, 1, 2, 3, 4, 5, 6, 7]).1) := by
  have hall : (td_allowRun TD_MAX_PER_MINUTE TD_MAX_PER_DAY ⟨0, 0, 0, 0⟩
      [0, 1, 2, 3, 4, 5, 6, 7]).2.all id = true := by
    norm_num [td_allowRun, td_allow_eq, td_resets_eq, TD_MAX_PER_MINUTE, TD_MAX_PER_DAY]
  refine ⟨hall, ?_⟩
  apply (td_allow_spec TD_MAX_PER_MINUTE TD_MAX_PER_DAY 8 ⟨0, 0, 0, 0⟩).2.2.2.2.2
      [0, 1, 2, 3, 4, 5, 6, 7] ?_ hall ?_ ?_ ?_
  · intro u hu
    fin_cases hu <;> norm_num
  · rfl
  · norm_num
  · norm_num

/-- C8: if more than 60s elapsed since the minute-window start, the minute
counter is reset to 0 (and the window start moved to now) before the call is
evaluated against the caps; analogously for the day counter after more than
86400s; and `_td_allow` evaluates the caps on the post-reset state. -/
theorem td_window_reset (capMin capDay : ℕ) (t : ℚ) (s : TdState) :
    (t - s.minuteWindowStart > 60 →
      (td_resets t s).minuteCount = 0 ∧ (td_resets t s).minuteWindowStart = t) ∧
    (t - s.dayWindowStart > 86400 →
      (td_resets t s).dayCount = 0 ∧ (td_resets t s).dayWindowStart = t) ∧
    td_allow capMin capDay t s =
      (if (td_resets t s).minuteCount < capMin ∧ (td_resets t s).dayCount < capDay then
        (true, { td_resets t s with
          minuteCount := (td_resets t s).minuteCount + 1
          dayCount := (td_resets t s).dayCount + 1 })
      else (false, td_resets t s)) := by
  refine ⟨?_, ?_, td_allow_eq capMin capDay t s⟩
  · intro h
    rw [td_resets_eq]
    constructor <;> dsimp only <;> rw [if_pos (by linarith)]
  · intro h
    rw [td_resets_eq]
    constructor <;> dsimp only <;> rw [if_pos (by linarith)]

/-- Witness for C8: a call 100s after the minute-window start resets the
minute counter; a call 100000s after the day-window start resets the day
counter. -/
theorem td_window_reset_witness :
    (td_resets 100 ⟨0, 5, 0, 7⟩).minuteCount = 0 ∧
    (td_resets 100000 ⟨0, 5, 0, 7⟩).dayCount = 0 :=
  ⟨((td_window_reset 8 800 100 ⟨0, 5, 0, 7⟩).1 (by norm_num)).1,
   ((td_window_reset 8 800 100000 ⟨0, 5, 0, 7⟩).2.1 (by norm_num)).1⟩

theorem mem_dropna (rows : List RawRow) (r : RawRow) (h : r ∈ dropna rows) :
    r.ts.isSome = true ∧ r.open_.isSome = true ∧ r.high.isSome = true ∧
    r.low.isSome = true ∧ r.close.isSome = true ∧ r.volume.isSome = true := by
  have hp := (List.mem_filter.mp h).2
  simp only [Bool.and_eq_true] at hp
  exact ⟨hp.1.1.1.1.1, hp.1.1.1.1.2, hp.1.1.1.2, hp.1.1.2, hp.1.2, hp.2⟩

theorem td_try_no_null (m : Market) (itv : String) :
    ∀ cands : List String, ∀ r ∈ (td_try m itv cands).1,
      r.open_.isSome = true ∧ r.high.isSome = true ∧
      r.low.isSome = true ∧ r.close.isSome = true := by
  intro cands
  induction cands with
  | nil => intro r hr; simp [td_try] at hr
  | cons c rest ih =>
    intro r hr
    rw [td_try] at hr
    cases hraw : m.tdRaw c with
    | none =>
      rw [hraw] at hr
      exact ih r hr
    | some rows =>
      rw [hraw] at hr
      obtain ⟨_, h2, h3, h4, h5, _⟩ := mem_dropna rows r hr
      exact ⟨h2, h3, h4, h5⟩

theorem download_yahoo_req (m : Market) (rng itv : String) :
    (download_yahoo m rng itv).2 = [⟨Provider.yahoo, rng, itv⟩] := by
  cases h : m.yahooRaw rng itv <;> simp [download_yahoo, h]

/-- Amended C6: the primary (TwelveData) and secondary (Yahoo chart) providers
drop every row with a null OHLC cell before returning; the tertiary provider
(yfinance) returns its delivered rows unchanged, with no null-dropping. -/
theorem provider_dropna_spec (m : Market) (sym tf rng itv per pint : String) :
    (∀ df log, download_td m sym tf = Except.ok (df, log) →
      ∀ r ∈ df, r.open_.isSome = true ∧ r.high.isSome = true ∧
        r.low.isSome = true ∧ r.close.isSome = true) ∧
    (∀ r ∈ (download_yahoo m rng itv).1,
      r.open_.isSome = true ∧ r.high.isSome = true ∧
        r.low.isSome = true ∧ r.close.isSome = true) ∧
    (∀ rows, m.yfEnabled = true → m.yfRaw per pint = some rows →
      (download_yf m per pint).1 = rows) := by
  refine ⟨?_, ?_, ?_⟩
  · intro df log hdt r hr
    rw [download_td] at hdt
    by_cases hk : ¬ m.tdKeyPresent = true ∨ ¬ m.tdAllowOk = true
    · rw [if_pos hk] at hdt
      injection hdt with hv
      injection hv with hdf _
      rw [← hdf] at hr
      simp at hr
    · rw [if_neg hk] at hdt
      cases hi : td_interval tf with
      | none => rw [hi] at hdt; exact absurd hdt (by simp)
      | some itv2 =>
        rw [hi] at hdt
        injection hdt with hv
        have hdf : df = (td_try m itv2
            [sym, "NASDAQ:" ++ sym, "NYSE:" ++ sym, "AMEX:" ++ sym]).1 := by
          rw [hv]
        rw [hdf] at hr
        exact td_try_no_null m itv2 _ r hr
  · intro r hr
    cases hraw : m.yahooRaw rng itv with
    | none => rw [download_yahoo, hraw] at hr; simp at hr
    | some rows =>
      rw [download_yahoo, hraw] at hr
      obtain ⟨_, h2, h3, h4, h5, _⟩ := mem_dropna rows r hr
      exact ⟨h2, h3, h4, h5⟩
  · intro rows hen hraw
    rw [download_yf, if_neg (by rw [hen]; simp), hraw]

/-- Counterexample to C6 as stated: a yfinance payload containing a row with a
null close is returned by the tertiary provider unchanged — the null row is
not dropped — and the fallback chain surfaces that row from a fetch. -/
theorem download_yf_null_passthrough :
    (download_yf yfOnlyMarket "1y" "1d").1 = [nullCloseRow] ∧
    (fetch_ohlcv yfOnlyMarket "AAPL" "1d").1 = Except.ok [nullCloseRow] ∧
    nullCloseRow.close = none :=
  ⟨rfl, rfl, rfl⟩

/-- Witness for the amended C6: from a TwelveData payload with one clean and
one null-close row, the returned frame's row has all OHLC cells present. -/
theorem provider_dropna_spec_witness :
    cleanRow.open_.isSome = true ∧ cleanRow.high.isSome = true ∧
    cleanRow.low.isSome = true ∧ cleanRow.close.isSome = true :=
  (provider_dropna_spec tdMixedMarket "AAPL" "1d" "1y" "1d" "1y" "1d").1
    [cleanRow] [⟨Provider.td, "AAPL", "1day"⟩] rfl cleanRow (by simp)

/-- C7: with the primary provider disabled (no API key) and the secondary
(Yahoo chart) stage producing a non-empty series, `fetch_ohlcv` returns that
series and constructs no yfinance request; and whenever the primary provider
returns a non-empty frame, `fetch_ohlcv` returns it immediately with only the
primary's requests — the chain stops at the first non-empty result. -/
theorem fetch_fallback_order (m : Market) (sym tf : String)
    (htf : tf = "1h" ∨ tf = "1d") :
    (m.tdKeyPresent = false →
      yahooStage m tf ≠ [] →
      (fetch_ohlcv m sym tf).1 = Except.ok (yahooStage m tf) ∧
      ∀ r ∈ (fetch_ohlcv m sym tf).2, r.provider ≠ Provider.yf) ∧
    (∀ df log, download_td m (sym.toUpper.trim) tf = Except.ok (df, log) →
      df ≠ [] → fetch_ohlcv m sym tf = (Except.ok df, log)) := by
  constructor
  · intro hkey hne
    have hdt : download_td m (sym.toUpper.trim) tf = Except.ok ([], []) := by
      rw [download_td, if_pos (Or.inl (by rw [hkey]; simp))]
    have hreq1 := download_yahoo_req m "7d" "60m"
    have hreq2 := download_yahoo_req m "1y" "1d"
    have hreq3 := download_yahoo_req m "2y" "1d"
    rcases htf with h1 | h1 <;> subst h1
    · by_cases ha : (download_yahoo m "7d" "60m").1.isEmpty
      · have hstage : yahooStage m "1h" = (download_yahoo m "1y" "1d").1 := by
          simp [yahooStage, ha]
        rw [hstage] at hne ⊢
        have hb : (download_yahoo m "1y" "1d").1.isEmpty = false := by
          simpa [List.isEmpty_iff] using hne
        constructor
        · simp [fetch_ohlcv, hdt, ha, hb]
        · intro r hr
          simp [fetch_ohlcv, hdt, ha, hb, hreq1, hreq2] at hr
          rcases hr with h | h <;> subst h <;> simp
      · have hstage : yahooStage m "1h" = (download_yahoo m "7d" "60m").1 := by
          simp [yahooStage, ha]
        rw [hstage] at hne ⊢
        have ha2 : (download_yahoo m "7d" "60m").1.isEmpty = false := by
          simpa using ha
        constructor
        · simp [fetch_ohlcv, hdt, ha2]
        · intro r hr
          simp [fetch_ohlcv, hdt, ha2, hreq1] at hr
          subst hr
          simp
    · by_cases ha : (download_yahoo m "1y" "1d").1.isEmpty
      · have hstage : yahooStage m "1d" = (download_yahoo m "2y" "1d").1 := by
          simp [yahooStage, ha]
        rw [hstage] at hne ⊢
        have hb : (download_yahoo m "2y" "1d").1.isEmpty = false := by
          simpa [List.isEmpty_iff] using hne
        constructor
        · simp [fetch_ohlcv, hdt, ha, hb]
        · intro r hr
          simp [fetch_ohlcv, hdt, ha, hb, hreq2, hreq3] at hr
          rcases hr with h | h <;> subst h <;> simp
      · have hstage : yahooStage m "1d" = (download_yahoo m "1y" "1d").1 := by
          simp [yahooStage, ha]
        rw [hstage] at hne ⊢
        have ha2 : (download_yahoo m "1y" "1d").1.isEmpty = false := by
          simpa using ha
        constructor
        · simp [fetch_ohlcv, hdt, ha2]
        · intro r hr
          simp [fetch_ohlcv, hdt, ha2, hreq2] at hr
          subst hr
          simp
  · intro df log hdto hdf
    have hni : df.isEmpty = false := by
      simpa [List.isEmpty_iff] using hdf
    simp [fetch_ohlcv, hdto, hni]

/-- Witness for C7: a market with no TwelveData key whose Yahoo stage delivers
one clean row has the fetch return exactly that row; a market whose primary
delivers a non-empty frame has the fetch return it with only the one TwelveData
request. -/
theorem fetch_fallback_order_witness :
    (fetch_ohlcv yahooMarket "AAPL" "1h").1 = Except.ok [cleanRow] ∧
    fetch_ohlcv tdMixedMarket "AAPL" "1d" =
      (Except.ok [cleanRow], [⟨Provider.td, "AAPL".toUpper.trim, "1day"⟩]) := by
  constructor
  · have hstage : yahooStage yahooMarket "1h" = [cleanRow] := rfl
    have hv := ((fetch_fallback_order yahooMarket "AAPL" "1h" (Or.inl rfl)).1 rfl
      (by rw [hstage]; simp)).1
    rw [hstage] at hv
    exact hv
  · exact (fetch_fallback_order tdMixedMarket "AAPL" "1d" (Or.inr rfl)).2
      [cleanRow] [⟨Provider.td, "AAPL".toUpper.trim, "1day"⟩] rfl (by simp)

theorem lookupOpen_eq_none_iff (db : DB) (sym tf : String) :
    lookupOpen db sym tf = none ↔ countOpen db sym tf = 0 := by
  rw [lookupOpen, List.argmax_eq_none, countOpen, List.length_eq_zero]

theorem countOpen_signals_irrelevant (db : DB) (sg : List SignalR) (n : ℕ) (sym tf : String) :
    countOpen { db with signals := sg, nextId := n } sym tf = countOpen db sym tf := rfl

theorem length_filter_map_le (f : PositionR → PositionR) (pred : PositionR → Bool)
    (h : ∀ p, pred (f p) = true → pred p = true) :
    ∀ ps : List PositionR, ((ps.map f).filter pred).length ≤ (ps.filter pred).length := by
  intro ps
  induction ps with
  | nil => simp
  | cons p ps ih =>
    rw [List.map_cons, List.filter_cons, List.filter_cons]
    by_cases hp : pred (f p) = true
    · rw [if_pos hp, if_pos (h p hp)]
      simpa using ih
    · rw [if_neg hp]
      split
      · exact le_trans ih (by simp)
      · exact ih

theorem countOpen_closeById_le (db : DB) (i n : ℕ) (sg : List SignalR) (sym tf : String) :
    countOpen { signals := sg, positions := closeById db.positions i, nextId := n }
        sym tf ≤ countOpen db sym tf := by
  rw [countOpen, countOpen, openFilter, openFilter, closeById]
  show ((db.positions.map _).filter _).length ≤ _
  apply length_filter_map_le
  intro p hp
  by_cases hip : p.id = i
  · rw [if_pos hip] at hp
    simp at hp
  · rw [if_neg hip] at hp
    exact hp

theorem countOpen_append_open (db : DB) (sg : List SignalR) (q : PositionR) (n : ℕ)
    (sym tf : String) (hq : q.symbol = sym ∧ q.timeframe = tf ∧ q.status = PStatus.OPEN) :
    countOpen { signals := sg, positions := db.positions ++ [q], nextId := n } sym tf =
      countOpen db sym tf + 1 := by
  rw [countOpen, countOpen, openFilter, openFilter]
  show ((db.positions ++ [q]).filter _).length = _
  rw [List.filter_append, List.length_append]
  congr 1
  rw [List.filter_cons, List.filter_nil]
  rw [if_pos (by simpa using hq)]
  rfl

theorem scanPair_invar (db : DB) (sym tf : String) (oc : PairOutcome)
    (h : countOpen db sym tf ≤ 1) :
    (∀ d ∈ (scanPair db sym tf oc).1, countOpen d sym tf ≤ 1) ∧
    countOpen (scanPair db sym tf oc).2.1 sym tf ≤ 1 := by
  rw [scanPair]
  cases hl : lookupOpen db sym tf with
  | some pos =>
    cases evalCaught oc.exitRes with
    | some s =>
      have hle := countOpen_closeById_le db pos.id db.nextId
        (db.signals ++ [sigRow s]) sym tf
      constructor
      · intro d hd
        rw [List.mem_singleton] at hd
        subst hd
        exact le_trans hle h
      · exact le_trans hle h
    | none => exact ⟨by simp, h⟩
  | none =>
    have h0 : countOpen db sym tf = 0 := (lookupOpen_eq_none_iff db sym tf).mp hl
    cases evalCaught oc.entryRes with
    | some s =>
      have h1 : countOpen { db with signals := db.signals ++ [sigRow s] } sym tf = 0 := h0
      have h2 : countOpen { db with
          signals := db.signals ++ [sigRow s]
          positions := db.positions ++ [newPosition db.nextId sym tf s]
          nextId := db.nextId + 1 } sym tf = countOpen db sym tf + 1 :=
        countOpen_append_open db (db.signals ++ [sigRow s])
          (newPosition db.nextId sym tf s) (db.nextId + 1) sym tf ⟨rfl, rfl, rfl⟩
      constructor
      · intro d hd
        simp only [List.mem_cons, List.not_mem_nil, or_false] at hd
        rcases hd with hd | hd
        · rw [hd, h1]; omega
        · rw [hd, h2, h0]
      · show countOpen _ sym tf ≤ 1
        rw [h2, h0]
    | none => exact ⟨by simp, h⟩

theorem runCycles_invar (sym tf : String) (ocs : List PairOutcome) :
    ∀ db : DB, countOpen db sym tf ≤ 1 →
      (∀ d ∈ (runCycles db sym tf ocs).1, countOpen d sym tf ≤ 1) ∧
      countOpen (runCycles db sym tf ocs).2 sym tf ≤ 1 := by
  induction ocs with
  | nil => intro db h; exact ⟨by simp [runCycles], h⟩
  | cons oc ocs ih =>
    intro db h
    have h1 := scanPair_invar db sym tf oc h
    have h2 := ih (scanPair db sym tf oc).2.1 h1.2
    rw [runCycles]
    constructor
    · intro d hd
      rw [List.mem_append] at hd
      rcases hd with hd | hd
      · exact h1.1 d hd
      · exact h2.1 d hd
    · exact h2.2

/-- C2: starting from a state with no OPEN position for a pair, no sequence of
scan cycles ever reaches a persisted state — intermediate commit or cycle end —
with two OPEN position rows for that pair. -/
theorem position_open_invariant (db : DB) (sym tf : String) (ocs : List PairOutcome)
    (h : countOpen db sym tf = 0) :
    (∀ d ∈ (runCycles db sym tf ocs).1, countOpen d sym tf ≤ 1) ∧
    countOpen (runCycles db sym tf ocs).2 sym tf ≤ 1 :=
  runCycles_invar sym tf ocs db (by omega)

/-- Witness for C2: from the empty store, a cycle that opens, one that closes
and one that reopens keep the OPEN count at most 1 throughout. -/
theorem position_open_invariant_witness :
    countOpen
      (runCycles ⟨[], [], 0⟩ "AAPL" "1h"
        [⟨Except.ok none, Except.ok (some buySig)⟩,
         ⟨Except.ok (some sellSig), Except.ok none⟩,
         ⟨Except.ok none, Except.ok (some buySig)⟩]).2 "AAPL" "1h" ≤ 1 :=
  (position_open_invariant ⟨[], [], 0⟩ "AAPL" "1h"
    [⟨Except.ok none, Except.ok (some buySig)⟩,
     ⟨Except.ok (some sellSig), Except.ok none⟩,
     ⟨Except.ok none, Except.ok (some buySig)⟩] rfl).2

/-- Counterexample to C1 as stated: on an entry for a pair with no open
position, the first commit persists the Signal row alone — the trace's first
persisted state has the BUY signal but no Position row, so signal persistence
and position creation are not one atomic step. -/
theorem entry_commit_not_atomic :
    (scanPair ⟨[], [], 0⟩ "AAPL" "1h" ⟨Except.ok none, Except.ok (some buySig)⟩).1 =
      [⟨[sigRow buySig], [], 0⟩,
       ⟨[sigRow buySig], [newPosition 0 "AAPL" "1h" buySig], 1⟩] ∧
    (⟨[sigRow buySig], [], 0⟩ : DB).signals = [sigRow buySig] ∧
    (⟨[sigRow buySig], [], 0⟩ : DB).positions = [] :=
  ⟨rfl, rfl, rfl⟩

/-- Amended C1: the exit path persists its Signal and the CLOSED transition in
one commit; the entry path persists the Signal in a first commit and the OPEN
Position only in a second commit — an intermediate persisted state with the
Signal but without the Position exists — while every committed state already
contains the new Signal row (position change never precedes the signal). -/
theorem scanPair_commit_structure (db : DB) (sym tf : String) (oc : PairOutcome) :
    (∀ pos s, lookupOpen db sym tf = some pos → evalCaught oc.exitRes = some s →
      scanPair db sym tf oc =
        ([{ db with
            signals := db.signals ++ [sigRow s],
            positions := closeById db.positions pos.id }],
         { db with
           signals := db.signals ++ [sigRow s],
           positions := closeById db.positions pos.id }, 1)) ∧
    (∀ s, lookupOpen db sym tf = none → evalCaught oc.entryRes = some s →
      (scanPair db sym tf oc).1 =
        [{ db with signals := db.signals ++ [sigRow s] },
         { db with
           signals := db.signals ++ [sigRow s],
           positions := db.positions ++ [newPosition db.nextId sym tf s],
           nextId := db.nextId + 1 }] ∧
      ({ db with signals := db.signals ++ [sigRow s] } : DB).positions = db.positions) ∧
    ((lookupOpen db sym tf).isSome → evalCaught oc.exitRes = none →
      scanPair db sym tf oc = ([], db, 0)) ∧
    (lookupOpen db sym tf = none → evalCaught oc.entryRes = none →
      scanPair db sym tf oc = ([], db, 0)) ∧
    (∀ d ∈ (scanPair db sym tf oc).1, ∃ s, d.signals = db.signals ++ [sigRow s]) := by
  refine ⟨?_, ?_, ?_, ?_, ?_⟩
  · intro pos s hl he
    rw [scanPair, hl, he]
  · intro s hl he
    rw [scanPair, hl, he]
    exact ⟨rfl, rfl⟩
  · intro hl he
    rw [scanPair]
    cases hlk : lookupOpen db sym tf with
    | some pos => rw [he]
    | none => rw [hlk] at hl; simp at hl
  · intro hl he
    rw [scanPair, hl, he]
  · intro d hd
    rw [scanPair] at hd
    cases hlk : lookupOpen db sym tf with
    | some pos =>
      rw [hlk] at hd
      cases hex : evalCaught oc.exitRes with
      | some s =>
        rw [hex] at hd
        rw [List.mem_singleton] at hd
        subst hd
        exact ⟨s, rfl⟩
      | none => rw [hex] at hd; simp at hd
    | none =>
      rw [hlk] at hd
      cases hen : evalCaught oc.entryRes with
      | some s =>
        rw [hen] at hd
        simp only [List.mem_cons, List.not_mem_nil, or_false] at hd
        rcases hd with hd | hd <;> subst hd <;> exact ⟨s, rfl⟩
      | none => rw [hen] at hd; simp at hd

/-- Witness for the amended C1: on the empty store with an entry firing, the
trace has exactly the signal-only commit followed by the signal-and-position
commit. -/
theorem scanPair_commit_structure_witness :
    (scanPair ⟨[], [], 0⟩ "AAPL" "1h" ⟨Except.ok none, Except.ok (some buySig)⟩).1 =
      [{ signals := [sigRow buySig], positions := [], nextId := 0 },
       { signals := [sigRow buySig], positions := [newPosition 0 "AAPL" "1h" buySig],
         nextId := 1 }] :=
  ((scanPair_commit_structure ⟨[], [], 0⟩ "AAPL" "1h"
    ⟨Except.ok none, Except.ok (some buySig)⟩).2.1 buySig rfl rfl).1

/-- C9: an exception raised inside `compute_exit` or `compute_entry` for one
pair is caught and treated as no signal: that pair commits nothing and
contributes zero to `created`, and the remaining pairs' processing is exactly
what it would have been without that pair. -/
theorem pair_exception_isolated (db : DB) (sym tf : String)
    (rest : List (String × String × PairOutcome)) :
    scanPair db sym tf ⟨Except.error (), Except.error ()⟩ = ([], db, 0) ∧
    runScan db ((sym, tf, ⟨Except.error (), Except.error ()⟩) :: rest) =
      runScan db rest := by
  have h1 : scanPair db sym tf ⟨Except.error (), Except.error ()⟩ = ([], db, 0) := by
    rw [scanPair]
    cases lookupOpen db sym tf <;> rfl
  refine ⟨h1, ?_⟩
  rw [runScan, h1]
  simp
